import Mathlib

/-!
Shallow embedding of the `matrix_calc` repository (src/matrix.rs and
src/operations.rs) and proofs about the claims of its specification.

Modelling conventions:
* `fraction::Fraction` (exact rational arithmetic) is modelled by `Rat`.
  The conversions `Fraction::from(i as u64)` / `Fraction::from(i as f64)`
  applied to row/column indices are modelled by the exact coercion
  `Nat → Rat` (the `f64` conversion is exact for every index below `2^53`;
  all indices reachable in this program are far below that).
* `&mut self` methods returning `Result<_, String>` are modelled by
  `MStep α`: `ok a m` is `Ok` with the matrix left in state `m`,
  `err e m` is `Err` with the matrix left in state `m` (Rust mutations
  performed before the error are NOT rolled back, hence the state),
  and `panicked` models a Rust panic (out-of-bounds `Vec` indexing).
* Error `String`s built with `format!` are modelled structurally: each
  `MatError` constructor corresponds to one `format!` template of
  matrix.rs and carries exactly the interpolated values.
* `self.height() - 1` on `usize` when `height == 0` underflows in Rust;
  release builds wrap (two's complement on u64).  This is modelled by
  `wrapSub1` as arithmetic modulo `2^64` (debug builds would panic on the
  same expression; the wrapping semantics is used here).
-/

namespace MatrixCalc

/-- Model of `fraction::Fraction`: exact rational numbers. -/
abbrev Frac := Rat

/-- matrix.rs `calc_checksum`: `(x + y) * n`. -/
def calc_checksum (x y n : Frac) : Frac := (x + y) * n

/-- matrix.rs `struct Matrix { elements, checksum }`. -/
structure Matrix where
  elements : List (List Frac)
  checksum : Frac
deriving DecidableEq

/-- Structural model of the `format!` error strings produced in matrix.rs.
Each constructor carries the values interpolated into one template:
* `invalidRow`: "Invalid row. Matrix max row index is {}, Got: {}."
* `invalidCol`: "Invalid column. Matrix max column index is {}, Got: {}."
* `emptyRowAt`: "Row with index {} is empty. Got column index: {}"
* `shapeError`: "Invalid row length. Expected: {}, Got: {} when inserting: {:?}"
-/
inductive MatError where
  | invalidRow (maxIdx got : Nat)
  | invalidCol (maxIdx got : Nat)
  | emptyRowAt (rowIdx colIdx : Nat)
  | shapeError (expected got : Nat) (row : List Frac)
deriving DecidableEq

/-- Outcome of one `&mut self` method call on `Matrix`, carrying the state
the matrix is left in (`panicked` models a Rust panic, which aborts the
process, so no state is observable). -/
inductive MStep (α : Type) where
  | panicked : MStep α
  | err : MatError → Matrix → MStep α
  | ok : α → Matrix → MStep α
deriving DecidableEq

/-- `usize` subtraction `n - 1` as executed by a release build when
`n = 0`: wrapping arithmetic on u64. -/
def wrapSub1 (n : Nat) : Nat := (n + (2 ^ 64 - 1)) % 2 ^ 64

/-- matrix.rs `height`: `self.elements.len()`. -/
def Matrix.height (m : Matrix) : Nat := m.elements.length

/-- matrix.rs `width`: `Some(self.elements.get(0)?.len())`. -/
def Matrix.width (m : Matrix) : Option Nat := m.elements.head?.map List.length

/-- matrix.rs `new`: empty matrix, checksum zero. -/
def Matrix.new : Matrix := { elements := [], checksum := 0 }

/-- Checksum contribution of one freshly inserted row at row index `r`,
as accumulated by the loop in `insert_row`:
`Σ_i calc_checksum(r, i, row[i])`. -/
def rowChecksum (r : Nat) (row : List Frac) : Frac :=
  (row.enum.map (fun p => calc_checksum (r : Frac) (p.1 : Frac) p.2)).sum

/-- The checksum recomputed independently from the elements (the
specification's independent-recompute oracle):
`Σ_{cells (r, c, v)} (r + c) * v`. -/
def trueChecksum (els : List (List Frac)) : Frac :=
  (els.enum.map (fun p => rowChecksum p.1 p.2)).sum

/-- `self.elements[x][y]` as a read (`none` = Rust panic). -/
def getCell (els : List (List Frac)) (x y : Nat) : Option Frac :=
  (els.get? x).bind (fun r => r.get? y)

/-- `self.elements[x][y] = value`.  Only used after the cell was read, so
the out-of-range fallback is never reached in the model. -/
def setCell (els : List (List Frac)) (x y : Nat) (v : Frac) : List (List Frac) :=
  match els.get? x with
  | some r => els.set x (r.set y v)
  | none => els

/-- matrix.rs `check_xy`: row bound first, then column bound (only when a
first row exists), otherwise the empty-row error. -/
def Matrix.check_xy (m : Matrix) (x y : Nat) : Except MatError Unit :=
  if m.height ≤ x then
    .error (.invalidRow (wrapSub1 m.height) x)
  else
    match m.width with
    | some w =>
      if w ≤ y then .error (.invalidCol (wrapSub1 w) y)
      else .ok ()
    | none => .error (.emptyRowAt x y)

/-- matrix.rs `get`: bounds check, then direct indexing. -/
def Matrix.get (m : Matrix) (x y : Nat) : MStep Frac :=
  match m.check_xy x y with
  | .error e => .err e m
  | .ok _ =>
    match getCell m.elements x y with
    | some v => .ok v m
    | none => .panicked

/-- matrix.rs `set`: bounds check, then
`diff = calc_checksum(x, y, old) - calc_checksum(x, y, value)` and
`checksum += diff` (the source subtracts in exactly this order). -/
def Matrix.set (m : Matrix) (x y : Nat) (value : Frac) : MStep Unit :=
  match m.check_xy x y with
  | .error e => .err e m
  | .ok _ =>
    match getCell m.elements x y with
    | none => .panicked
    | some n =>
      let diff := calc_checksum x y n - calc_checksum x y value
      .ok () { elements := setCell m.elements x y value,
               checksum := m.checksum + diff }

/-- matrix.rs `insert_row`: the loop first adds every new cell's
contribution to the checksum (row index = pre-insertion height), and only
afterwards the width of the collected row is validated. -/
def Matrix.insert_row (m : Matrix) (row : List Frac) : MStep Unit :=
  let checksum' := m.checksum + rowChecksum m.height row
  match m.width with
  | some w =>
    if w = row.length then
      .ok () { elements := m.elements ++ [row], checksum := checksum' }
    else
      .err (.shapeError w row.length row)
        { elements := m.elements, checksum := checksum' }
  | none => .ok () { elements := m.elements ++ [row], checksum := checksum' }

/-- Loop of matrix.rs `from_iter`: insert each row, `?`-propagating the
first failure. -/
def from_iter_go (m : Matrix) : List (List Frac) → MStep Unit
  | [] => .ok () m
  | r :: rs =>
    match m.insert_row r with
    | .panicked => .panicked
    | .err e m' => .err e m'
    | .ok _ m' => from_iter_go m' rs

/-- matrix.rs `from_iter`: start from `new` and insert every row. -/
def Matrix.from_iter (rows : List (List Frac)) : MStep Unit :=
  from_iter_go Matrix.new rows

/-- operations.rs `enum Operations`. -/
inductive Operations where
  | SwapRows (lhs rhs : Nat)
  | Multiply (row : Nat) (scaler : Frac)
  | ReplaceWithMultiple (scaler : Frac) (scaler_row target_row : Nat)
  | ShowHelp
  | ClearScreen
  | ShowMatrix
  | ExitProgram
deriving DecidableEq

/-- `Vec::swap(i, j)` on a list (only invoked after both bounds were
checked, so the fallback arm is unreachable in the model). -/
def listSwap {α : Type} (l : List α) (i j : Nat) : List α :=
  match l.get? i, l.get? j with
  | some a, some b => (l.set i b).set j a
  | _, _ => l

/-- One delta loop of the `SwapRows` arm of `operate`, iterating columns
`0..n` over the already-swapped elements: at column `i` it reads
`old = els[oldIdx][i]` and `new = els[newIdx][i]` and accumulates
`calc_checksum(oldIdx, i, old) - calc_checksum(newIdx, i, new)`
(`none` = a read panicked). -/
def swapDelta (els : List (List Frac)) (oldIdx newIdx : Nat) : Nat → Option Frac
  | 0 => some 0
  | n + 1 =>
    match swapDelta els oldIdx newIdx n, getCell els oldIdx n, getCell els newIdx n with
    | some acc, some old, some new =>
      some (acc + (calc_checksum (oldIdx : Frac) (n : Frac) old
        - calc_checksum (newIdx : Frac) (n : Frac) new))
    | _, _, _ => none

/-- Loop of the `Multiply` arm of `operate`:
`self.set(xy, self.get(xy)? * scaler)?` for each column index. -/
def mulLoop (row : Nat) (scaler : Frac) : Matrix → List Nat → MStep Unit
  | m, [] => .ok () m
  | m, i :: rest =>
    match m.get row i with
    | .panicked => .panicked
    | .err e m' => .err e m'
    | .ok v m' =>
      match m'.set row i (v * scaler) with
      | .panicked => .panicked
      | .err e m'' => .err e m''
      | .ok _ m'' => mulLoop row scaler m'' rest

/-- Loop of the `ReplaceWithMultiple` arm of `operate`:
`self.set(xy, self.get(xy)? + scaler_row[i])?` for each column index
(the `scaler_row[i]` indexing can panic). -/
def repLoop (toRow : Nat) (scalerRow : List Frac) : Matrix → List Nat → MStep Unit
  | m, [] => .ok () m
  | m, i :: rest =>
    match m.get toRow i with
    | .panicked => .panicked
    | .err e m' => .err e m'
    | .ok v m' =>
      match scalerRow.get? i with
      | none => .panicked
      | some s =>
        match m'.set toRow i (v + s) with
        | .panicked => .panicked
        | .err e m'' => .err e m''
        | .ok _ m'' => repLoop toRow scalerRow m'' rest

/-- matrix.rs `operate`.
* `SwapRows`: explicit bounds checks, `Vec::swap`, then the two delta
  loops (their accumulations commute, so they are gathered as
  `checksum + d1 + d2`).
* `Multiply` / `ReplaceWithMultiple`: no bounds check — `self.elements[row]`
  is indexed directly, so an out-of-range row index is a panic.
* `ShowHelp` is explicitly ignored by the source; the remaining
  session-control variants do not touch the matrix either. -/
def Matrix.operate (m : Matrix) (op : Operations) : MStep Unit :=
  match op with
  | .SwapRows lhs rhs =>
    if m.height ≤ lhs then .err (.invalidRow (wrapSub1 m.height) lhs) m
    else if m.height ≤ rhs then .err (.invalidRow (wrapSub1 m.height) rhs) m
    else
      let els := listSwap m.elements lhs rhs
      match els.get? lhs with
      | none => .panicked
      | some rowL =>
        match swapDelta els rhs lhs rowL.length with
        | none => .panicked
        | some d1 =>
          match els.get? rhs with
          | none => .panicked
          | some rowR =>
            match swapDelta els lhs rhs rowR.length with
            | none => .panicked
            | some d2 => .ok () { elements := els, checksum := m.checksum + d1 + d2 }
  | .Multiply row scaler =>
    match m.elements.get? row with
    | none => .panicked
    | some r => mulLoop row scaler m (List.range r.length)
  | .ReplaceWithMultiple scaler from_row to_row =>
    match m.elements.get? from_row with
    | none => .panicked
    | some fr =>
      let scaler_row := fr.map (fun n => n * scaler)
      match m.elements.get? to_row with
      | none => .panicked
      | some tr => repLoop to_row scaler_row m (List.range tr.length)
  | .ShowHelp => .ok () m
  | .ClearScreen => .ok () m
  | .ShowMatrix => .ok () m
  | .ExitProgram => .ok () m

/-- Rectangularity (spec Invariant A): every row has the width of the
first row.  Matrices built through `insert_row` always satisfy it. -/
def Rectangular (m : Matrix) : Prop :=
  ∀ r ∈ m.elements, r.length = (m.elements.headD []).length

instance (m : Matrix) : Decidable (Rectangular m) :=
  List.decidableBAll _ _

/-- `str::split_once(c)` on a character list: split at the first
occurrence, which is consumed. -/
def splitOnceL (c : Char) : List Char → Option (List Char × List Char)
  | [] => none
  | x :: xs =>
    if x = c then some ([], xs)
    else
      match splitOnceL c xs with
      | none => none
      | some (a, b) => some (x :: a, b)

/-- `str::split_once(c)` on strings. -/
def splitOnce (s : String) (c : Char) : Option (String × String) :=
  (splitOnceL c s.toList).map (fun p => (String.mk p.1, String.mk p.2))

/-- `str::to_lowercase()`, modelled per character (exact for the ASCII
inputs this grammar deals with). -/
def lowerStr (s : String) : String := String.mk (s.toList.map Char.toLower)

/-- The index-token cleanup used by every row-index parse in
operations.rs: `.to_lowercase().chars().filter(|c| *c != 'r').collect()`. -/
def stripR (s : String) : String :=
  String.mk ((lowerStr s).toList.filter (fun c => c != 'r'))

/-- Decimal digits to a natural number. -/
def digitsToNat (l : List Char) : Nat :=
  l.foldl (fun a c => a * 10 + (c.toNat - 48)) 0

/-- `str::parse::<usize>()`: optional leading `+`, at least one decimal
digit, value below `2^64` (larger values are an overflow error). -/
def parseUsize (s : String) : Option Nat :=
  let cs := s.toList
  let cs :=
    match cs with
    | '+' :: rest => rest
    | _ => cs
  if cs.isEmpty then none
  else if cs.all Char.isDigit then
    let n := digitsToNat cs
    if n < 2 ^ 64 then some n else none
  else none

/-- Modelled from the dependency: `Fraction::from_str` of the external
`fraction` crate (the spec treats rational-number parsing as an
out-of-scope collaborator).  Accepts an optional sign followed by an
integer (`2`), a fraction (`1/2`), or a decimal (`1.5`) written with
decimal digits; everything else is a parse error. -/
def fractionFromStr (s : String) : Option Frac :=
  let cs := s.toList
  let (neg, cs) :=
    match cs with
    | '-' :: rest => (true, rest)
    | '+' :: rest => (false, rest)
    | _ => (false, cs)
  let signed : Frac → Frac := fun q => if neg then -q else q
  match splitOnceL '/' cs with
  | some (numcs, dencs) =>
    if numcs ≠ [] ∧ numcs.all Char.isDigit ∧ dencs ≠ [] ∧ dencs.all Char.isDigit then
      let den := digitsToNat dencs
      if den = 0 then none
      else some (signed ((digitsToNat numcs : Frac) / (den : Frac)))
    else none
  | none =>
    match splitOnceL '.' cs with
    | some (ipcs, fpcs) =>
      if ipcs ≠ [] ∧ ipcs.all Char.isDigit ∧ fpcs ≠ [] ∧ fpcs.all Char.isDigit then
        some (signed ((digitsToNat ipcs : Frac)
          + (digitsToNat fpcs : Frac) / ((10 : Frac) ^ fpcs.length)))
      else none
    | none =>
      if cs ≠ [] ∧ cs.all Char.isDigit then some (signed (digitsToNat cs : Frac))
      else none

/-- The keyword dispatch of `Operations::try_from` (the big
`match op.to_lowercase().as_str()`), given the keyword token and the rest
of the line.  Error strings reproduce the source's `format!` templates;
the message text appended after a failed scaler parse stands for the
collaborating library's error description. -/
def dispatch (op rest : String) : Except String Operations :=
  let o := lowerStr op
  if o = "h" ∨ o = "help" then .ok .ShowHelp
  else if o = "c" ∨ o = "clear" then .ok .ClearScreen
  else if o = "show" then .ok .ShowMatrix
  else if o = "q" ∨ o = "exit" then .ok .ExitProgram
  else if o = "s" then
    match splitOnce rest ' ' with
    | none => .error ("Expected two space separated row indices. Got: \"" ++ rest ++ "\"")
    | some (l, r) =>
      let ls := stripR l
      let rs := stripR r
      match parseUsize ls with
      | none => .error ("Failed to parse \"" ++ ls ++ "\" to `usize`")
      | some lhs =>
        match parseUsize rs with
        | none => .error ("Failed to parse \"" ++ rs ++ "\" to `usize`")
        | some rhs => .ok (.SwapRows lhs rhs)
  else if o = "m" then
    match splitOnce rest ' ' with
    | none => .error ("Expected a scaler and a row index separated by a space. Got: \"" ++ rest ++ "\"")
    | some (scalerTok, rowTok) =>
      match fractionFromStr scalerTok with
      | none => .error ("Failed to parse \"" ++ scalerTok ++ "\". " ++ "invalid value")
      | some scaler =>
        match parseUsize (stripR rowTok) with
        | none => .error ("Failed to parse \"" ++ rowTok ++ "\".")
        | some row => .ok (.Multiply row scaler)
  else if o = "r" then
    match splitOnce rest ' ' with
    | none => .error ("Expected a scaler and two row indices separated by spaces. Got: \"" ++ rest ++ "\"")
    | some (scalerTok, rows) =>
      match splitOnce rows ' ' with
      | none => .error ("Expected two row indices separated by a space. Got: \"" ++ rows ++ "\"")
      | some (srTok, trTok) =>
        match fractionFromStr scalerTok with
        | none => .error ("Failed to parse \"" ++ scalerTok ++ "\". " ++ "invalid value")
        | some scaler =>
          match parseUsize (stripR srTok) with
          | none => .error ("Failed to parse \"" ++ srTok ++ "\".")
          | some scaler_row =>
            match parseUsize (stripR trTok) with
            | none => .error ("Failed to parse \"" ++ trTok ++ "\".")
            | some target_row => .ok (.ReplaceWithMultiple scaler scaler_row target_row)
  else .error ("\"" ++ op ++ "\" is not a valid operation.")

/-- operations.rs `Operations::try_from(&str)`: a line without a space is
accepted only when (lowercased) it is one of the bare keywords, in which
case the original line is dispatched with an empty rest. -/
def Operations.tryFrom (value : String) : Except String Operations :=
  match splitOnce value ' ' with
  | some (op, rest) => dispatch op rest
  | none =>
    let value_lower := lowerStr value
    if value_lower = "h" ∨ value_lower = "help" ∨ value_lower = "c"
        ∨ value_lower = "clear" ∨ value_lower = "q" ∨ value_lower = "exit"
        ∨ value_lower = "show" then
      dispatch value ""
    else .error ("\"" ++ value_lower ++ "\" is not a complete instruction.")

/-! ## Claims about concrete runs -/

unseal Rat.add Rat.mul Rat.sub Rat.inv in
/-- Claim C1 (code_bug evidence): starting from the reachable matrix
`[[1,2]]` (whose stored checksum 2 still agrees with the independent
recomputation), a single successful `set((0,1), 5)` leaves the stored
checksum at `-1` while the checksum recomputed independently from the
elements is `5`: `set` applies the delta `old - new` instead of
`new - old`, so the consistency invariant breaks after one step. -/
theorem c1_set_corrupts_checksum :
    Matrix.from_iter [[1, 2]] = .ok () (Matrix.mk [[1, 2]] 2) ∧
    (Matrix.mk [[1, 2]] 2).checksum = trueChecksum [[1, 2]] ∧
    (Matrix.mk [[1, 2]] 2).set 0 1 5 = .ok () (Matrix.mk [[1, 5]] (-1)) ∧
    trueChecksum [[1, 5]] = 5 ∧
    (Matrix.mk [[1, 5]] (-1)).checksum ≠ trueChecksum [[1, 5]] := by
  decide

unseal Rat.add Rat.mul Rat.sub Rat.inv in
/-- Claim C2 (code_bug evidence): inserting the too-long row `[1,1]` into
the reachable matrix `[[1]]` (checksum 0) is rejected with the shape
error and the row is not appended, but the stored checksum has already
been increased by the rejected row's contribution
`(1+0)*1 + (1+1)*1 = 3`, so it does not keep its pre-call value. -/
theorem c2_insert_row_rejects_but_pollutes :
    Matrix.from_iter [[1]] = .ok () (Matrix.mk [[1]] 0) ∧
    (Matrix.mk [[1]] 0).insert_row [1, 1]
      = .err (.shapeError 1 2 [1, 1]) (Matrix.mk [[1]] 3) ∧
    ((3 : Frac) ≠ 0) := by
  decide

unseal Rat.add Rat.mul Rat.sub Rat.inv in
/-- Claim C3 (code_bug evidence): on the height-1 matrix `[[1]]`,
`operate` with `Multiply{row:1}`, or with `ReplaceWithMultiple` whose
`scaler_row` or `target_row` is 1, panics (out-of-bounds `Vec` indexing
before any bounds check) instead of returning an index error. -/
theorem c3_oob_row_panics :
    (Matrix.mk [[1]] 0).operate (.Multiply 1 2) = .panicked ∧
    (Matrix.mk [[1]] 0).operate (.ReplaceWithMultiple 2 1 0) = .panicked ∧
    (Matrix.mk [[1]] 0).operate (.ReplaceWithMultiple 2 0 1) = .panicked := by
  decide

unseal Rat.add Rat.mul Rat.sub Rat.inv in
/-- Claim C4 (code_bug evidence): on a matrix with zero rows, `check_xy`
always takes the generic row-out-of-range branch — whose reported max
index is the u64-wrapped `height() - 1 = 2^64 - 1` — and never produces
the distinct empty-row error the source also contains (that branch is
unreachable). -/
theorem c4_zero_rows_generic_error (c : Frac) (x y : Nat) :
    (Matrix.mk [] c).check_xy x y
      = .error (.invalidRow 18446744073709551615 x) := by
  simp [Matrix.check_xy, Matrix.height, wrapSub1]

unseal Rat.add Rat.mul Rat.sub Rat.inv in
/-- Claim C7 (code_bug evidence): inserting `[1,2,3]`, `[4,5,6]`,
`[7,8,9]` yields stored checksum 114 and `SwapRows{0,2}` leaves the
stored checksum at 114, but `Multiply{row:0, scaler:2}` then produces
row 0 = `[14,16,18]` with stored checksum `88 = 114 - 26`: the checksum
decreases by 26 instead of increasing by 26. -/
theorem c7_example_run :
    Matrix.from_iter [[1, 2, 3], [4, 5, 6], [7, 8, 9]]
      = .ok () (Matrix.mk [[1, 2, 3], [4, 5, 6], [7, 8, 9]] 114) ∧
    (Matrix.mk [[1, 2, 3], [4, 5, 6], [7, 8, 9]] 114).operate (.SwapRows 0 2)
      = .ok () (Matrix.mk [[7, 8, 9], [4, 5, 6], [1, 2, 3]] 114) ∧
    (Matrix.mk [[7, 8, 9], [4, 5, 6], [1, 2, 3]] 114).operate (.Multiply 0 2)
      = .ok () (Matrix.mk [[14, 16, 18], [4, 5, 6], [1, 2, 3]] 88) ∧
    ((88 : Frac) = 114 - 26) ∧ ((88 : Frac) ≠ 114 + 26) := by
  decide

/-- Claim C8 (counterexample): parsing the bare line "restart" does not
succeed — there is no operation value it parses to. -/
theorem c8_restart_does_not_parse :
    ¬ ∃ op : Operations, Operations.tryFrom "restart" = .ok op := by
  rintro ⟨op, h⟩
  rw [show Operations.tryFrom "restart"
      = .error "\"restart\" is not a complete instruction." from rfl] at h
  exact Except.noConfusion h

/-- Claim C8 (amended): parsing "restart" (in any letter case) fails with
the descriptive error `"restart" is not a complete instruction.`; the
operation set has no Restart variant at all. -/
theorem c8_restart_is_rejected :
    Operations.tryFrom "restart"
      = .error "\"restart\" is not a complete instruction." ∧
    Operations.tryFrom "RESTART"
      = .error "\"restart\" is not a complete instruction." :=
  ⟨rfl, rfl⟩

/-- Claim C9: "S R1 R2" parses to `SwapRows{1,2}`, "m -1/2 0" parses to
`Multiply{row:0, scaler:-1/2}`, and "bogus" and "S 1" fail with their
descriptive errors (the parser is a total function, so no panic). -/
theorem c9_parse_round_trip :
    Operations.tryFrom "S R1 R2" = .ok (.SwapRows 1 2) ∧
    Operations.tryFrom "m -1/2 0" = .ok (.Multiply 0 (-(1 / 2 : Frac))) ∧
    Operations.tryFrom "bogus"
      = .error "\"bogus\" is not a complete instruction." ∧
    Operations.tryFrom "S 1"
      = .error "Expected two space separated row indices. Got: \"1\"" := by
  refine ⟨rfl, by rfl, rfl, rfl⟩


lemma char_toLower_toNat_ne_82 (x : Char) : (Char.toLower x).toNat ≠ 82 := by
  by_cases hcond : x.toNat ≥ 65 ∧ x.toNat ≤ 90
  · have h1 : Char.toLower x = Char.ofNat (x.toNat + 32) := by
      simp only [Char.toLower]
      rw [if_pos hcond]
    have hv : (x.toNat + 32).isValidChar := Or.inl (by omega)
    rw [h1, Char.ofNat, dif_pos hv]
    have h2 : Char.toNat (Char.ofNatAux (x.toNat + 32) hv) = x.toNat + 32 := rfl
    rw [h2]
    omega
  · have h1 : Char.toLower x = x := by
      simp only [Char.toLower]
      rw [if_neg hcond]
    rw [h1]
    omega

lemma char_toLower_ne_R (x : Char) : Char.toLower x ≠ 'R' := by
  intro h
  exact char_toLower_toNat_ne_82 x (by rw [h]; rfl)

/-- Claim C10: every occurrence of the letter r — lowercase or uppercase,
anywhere in the token, not only a leading prefix — is removed from an
index token before integer parsing: the cleaned token never contains an
'r' or an 'R', the tokens "1r", "r1r" and "R1" all parse to index 1, and
the full line "s 1r r2r" parses to `SwapRows{1,2}`. -/
theorem c10_strip_every_r :
    (∀ s : String, (stripR s).toList.all (fun c => c != 'r' && c != 'R') = true) ∧
    parseUsize (stripR "1r") = some 1 ∧
    parseUsize (stripR "r1r") = some 1 ∧
    parseUsize (stripR "R1") = some 1 ∧
    Operations.tryFrom "s 1r r2r" = .ok (.SwapRows 1 2) := by
  refine ⟨?_, rfl, rfl, rfl, rfl⟩
  intro s
  rw [List.all_eq_true]
  intro c hc
  have hc' : c ∈ (s.toList.map Char.toLower).filter (fun c => c != 'r') := hc
  rw [List.mem_filter] at hc'
  obtain ⟨hmem, hr⟩ := hc'
  obtain ⟨x, _, rfl⟩ := List.mem_map.1 hmem
  rw [Bool.and_eq_true]
  refine ⟨hr, ?_⟩
  exact bne_iff_ne.mpr (char_toLower_ne_R x)


/-! ## Infrastructure and claims C5, C6 -/

lemma get?_set_self' {α : Type} (l : List α) (i : Nat) (a : α) (h : i < l.length) :
    (l.set i a).get? i = some a := by
  rw [List.get?_set_eq, List.get?_eq_get h]
  rfl

lemma set_self {α : Type} (l : List α) (i : Nat) (a : α) (h : l.get? i = some a) :
    l.set i a = l := by
  apply List.ext_get?
  intro n
  by_cases hn : n = i
  · subst hn
    rw [List.get?_set_eq, h]
    rfl
  · exact List.get?_set_ne _ _ (fun hh => hn hh.symm)

lemma listSwap_def {α : Type} (l : List α) (i j : Nat) (a b : α)
    (ha : l.get? i = some a) (hb : l.get? j = some b) :
    listSwap l i j = (l.set i b).set j a := by
  unfold listSwap
  rw [ha, hb]

lemma listSwap_length {α : Type} (l : List α) (i j : Nat) :
    (listSwap l i j).length = l.length := by
  unfold listSwap
  split
  · simp [List.length_set]
  · rfl

lemma listSwap_get?_left {α : Type} (l : List α) (i j : Nat) (a b : α)
    (ha : l.get? i = some a) (hb : l.get? j = some b) :
    (listSwap l i j).get? i = some b := by
  have hi : i < l.length := by
    obtain ⟨h, -⟩ := List.get?_eq_some.mp ha
    exact h
  rw [listSwap_def l i j a b ha hb]
  by_cases hij : i = j
  · subst hij
    have hab : a = b := by
      rw [ha] at hb
      exact Option.some.inj hb
    subst hab
    rw [List.set_set]
    exact get?_set_self' l i a hi
  · rw [List.get?_set_ne _ _ (fun h => hij h.symm)]
    exact get?_set_self' l i b hi

lemma listSwap_get?_right {α : Type} (l : List α) (i j : Nat) (a b : α)
    (ha : l.get? i = some a) (hb : l.get? j = some b) :
    (listSwap l i j).get? j = some a := by
  have hj : j < l.length := by
    obtain ⟨h, -⟩ := List.get?_eq_some.mp hb
    exact h
  rw [listSwap_def l i j a b ha hb]
  exact get?_set_self' _ _ _ (by rw [List.length_set]; exact hj)

lemma listSwap_get?_other {α : Type} (l : List α) (i j k : Nat)
    (hki : k ≠ i) (hkj : k ≠ j) :
    (listSwap l i j).get? k = l.get? k := by
  unfold listSwap
  split
  · rw [List.get?_set_ne _ _ (fun h => hkj h.symm),
      List.get?_set_ne _ _ (fun h => hki h.symm)]
  · rfl

lemma listSwap_involution {α : Type} (l : List α) (i j : Nat) (a b : α)
    (ha : l.get? i = some a) (hb : l.get? j = some b) :
    listSwap (listSwap l i j) i j = l := by
  have h1 := listSwap_get?_left l i j a b ha hb
  have h2 := listSwap_get?_right l i j a b ha hb
  apply List.ext_get?
  intro n
  by_cases hni : n = i
  · subst hni
    rw [listSwap_get?_left _ _ _ _ _ h1 h2, ha]
  · by_cases hnj : n = j
    · subst hnj
      rw [listSwap_get?_right _ _ _ _ _ h1 h2, hb]
    · rw [listSwap_get?_other _ _ _ _ hni hnj, listSwap_get?_other _ _ _ _ hni hnj]

lemma getCell_isSome_of (els : List (List Frac)) (x i : Nat) (R : List Frac)
    (hx : els.get? x = some R) (hi : i < R.length) :
    (getCell els x i).isSome := by
  rw [getCell, hx]
  simp only [Option.some_bind]
  rw [List.get?_eq_get hi]
  rfl

lemma swapDelta_isSome (els : List (List Frac)) (x y : Nat) : ∀ (n : Nat),
    (∀ i, i < n → (getCell els x i).isSome) →
    (∀ i, i < n → (getCell els y i).isSome) →
    ∃ d, swapDelta els x y n = some d := by
  intro n
  induction n with
  | zero => exact fun _ _ => ⟨0, rfl⟩
  | succ k ih =>
    intro hx hy
    obtain ⟨d, hd⟩ := ih (fun i h => hx i (by omega)) (fun i h => hy i (by omega))
    obtain ⟨o, ho⟩ := Option.isSome_iff_exists.mp (hx k (by omega))
    obtain ⟨w, hw⟩ := Option.isSome_iff_exists.mp (hy k (by omega))
    refine ⟨d + (calc_checksum (x : Frac) (k : Frac) o - calc_checksum (y : Frac) (k : Frac) w), ?_⟩
    rw [swapDelta, hd, ho, hw]

lemma swapDelta_cancel (els : List (List Frac)) (x y : Nat) : ∀ (n : Nat) (d1 d2 : Frac),
    swapDelta els x y n = some d1 → swapDelta els y x n = some d2 → d1 + d2 = 0 := by
  intro n
  induction n with
  | zero =>
    intro d1 d2 h1 h2
    rw [swapDelta] at h1 h2
    obtain rfl := Option.some.inj h1
    obtain rfl := Option.some.inj h2
    ring
  | succ k ih =>
    intro d1 d2 h1 h2
    rw [swapDelta] at h1 h2
    rcases e1 : swapDelta els x y k with - | acc1 <;> rw [e1] at h1
    · exact absurd h1 (by simp)
    rcases e2 : getCell els x k with - | u <;> rw [e2] at h1
    · exact absurd h1 (by simp)
    rcases e3 : getCell els y k with - | v <;> rw [e3] at h1
    · exact absurd h1 (by simp)
    rcases e4 : swapDelta els y x k with - | acc2 <;> rw [e4] at h2
    · exact absurd h2 (by simp)
    rw [e3, e2] at h2
    obtain rfl := Option.some.inj h1
    obtain rfl := Option.some.inj h2
    have h := ih acc1 acc2 e1 e4
    linear_combination h

lemma operate_swap_eq (m : Matrix) (a b : Nat) (W : Nat)
    (hW : ∀ r ∈ m.elements, r.length = W)
    (ha : a < m.height) (hb : b < m.height) :
    m.operate (.SwapRows a b)
      = .ok () { elements := listSwap m.elements a b, checksum := m.checksum } := by
  obtain ⟨A, hA⟩ : ∃ A, m.elements.get? a = some A :=
    ⟨_, List.get?_eq_get ha⟩
  obtain ⟨B, hB⟩ : ∃ B, m.elements.get? b = some B :=
    ⟨_, List.get?_eq_get hb⟩
  have hAl : A.length = W := hW A (List.get?_mem hA)
  have hBl : B.length = W := hW B (List.get?_mem hB)
  have hga : (listSwap m.elements a b).get? a = some B :=
    listSwap_get?_left _ _ _ _ _ hA hB
  have hgb : (listSwap m.elements a b).get? b = some A :=
    listSwap_get?_right _ _ _ _ _ hA hB
  obtain ⟨d1, hd1⟩ := swapDelta_isSome (listSwap m.elements a b) b a B.length
    (fun i hi => getCell_isSome_of _ b i A hgb (by omega))
    (fun i hi => getCell_isSome_of _ a i B hga hi)
  obtain ⟨d2, hd2⟩ := swapDelta_isSome (listSwap m.elements a b) a b A.length
    (fun i hi => getCell_isSome_of _ a i B hga (by omega))
    (fun i hi => getCell_isSome_of _ b i A hgb hi)
  have hd2' : swapDelta (listSwap m.elements a b) a b B.length = some d2 := by
    rw [show B.length = A.length by omega]
    exact hd2
  have hcancel : d1 + d2 = 0 :=
    swapDelta_cancel _ b a B.length d1 d2 hd1 hd2'
  simp only [Matrix.operate]
  rw [if_neg (Nat.not_le.mpr ha), if_neg (Nat.not_le.mpr hb)]
  simp only [hga, hd1, hgb, hd2]
  rw [add_assoc, hcancel, add_zero]

/-- Claim C5: for any rectangular matrix and any two valid row indices
(including equal ones), applying `SwapRows{a,b}` twice succeeds and
restores both the elements and the stored checksum exactly; moreover each
single swap already leaves the stored checksum unchanged. -/
theorem c5_swap_involution (m : Matrix) (a b : Nat)
    (ha : a < m.height) (hb : b < m.height) (hrect : Rectangular m) :
    ∃ m₁ : Matrix, m.operate (.SwapRows a b) = .ok () m₁ ∧
      m₁.checksum = m.checksum ∧
      m₁.operate (.SwapRows a b) = .ok () m := by
  obtain ⟨A, hA⟩ : ∃ A, m.elements.get? a = some A := ⟨_, List.get?_eq_get ha⟩
  obtain ⟨B, hB⟩ : ∃ B, m.elements.get? b = some B := ⟨_, List.get?_eq_get hb⟩
  have hW : ∀ r ∈ m.elements, r.length = (m.elements.headD []).length := hrect
  have hAl := hW A (List.get?_mem hA)
  have hBl := hW B (List.get?_mem hB)
  have h1 := operate_swap_eq m a b _ hW ha hb
  refine ⟨⟨listSwap m.elements a b, m.checksum⟩, h1, rfl, ?_⟩
  have hlen : (listSwap m.elements a b).length = m.elements.length :=
    listSwap_length _ _ _
  have hW1 : ∀ r ∈ listSwap m.elements a b,
      r.length = (m.elements.headD []).length := by
    intro r hr
    rw [listSwap_def m.elements a b A B hA hB] at hr
    rcases List.mem_or_eq_of_mem_set hr with hr1 | rfl
    · rcases List.mem_or_eq_of_mem_set hr1 with hr2 | rfl
      · exact hW r hr2
      · exact hBl
    · exact hAl
  have h2 := operate_swap_eq ⟨listSwap m.elements a b, m.checksum⟩ a b
      ((m.elements.headD []).length) hW1
      (by show a < (listSwap m.elements a b).length; rw [hlen]; exact ha)
      (by show b < (listSwap m.elements a b).length; rw [hlen]; exact hb)
  rw [h2, listSwap_involution m.elements a b A B hA hB]

/-- Witness for C5 at the concrete matrix `[[1,2],[3,4]]` with checksum
13 and the row pair (0, 1). -/
theorem c5_swap_involution_witness :
    ∃ m₁ : Matrix,
      (Matrix.mk [[1, 2], [3, 4]] 13).operate (.SwapRows 0 1) = .ok () m₁ ∧
      m₁.checksum = (Matrix.mk [[1, 2], [3, 4]] 13).checksum ∧
      m₁.operate (.SwapRows 0 1) = .ok () (Matrix.mk [[1, 2], [3, 4]] 13) :=
  c5_swap_involution (Matrix.mk [[1, 2], [3, 4]] 13) 0 1
    (by decide) (by decide) (by decide)

lemma width_eq (m : Matrix) (W : Nat) (hne : m.elements ≠ [])
    (hW : ∀ q ∈ m.elements, q.length = W) : m.width = some W := by
  unfold Matrix.width
  cases h : m.elements with
  | nil => exact absurd h hne
  | cons q qs =>
    simp only [List.head?_cons, Option.map_some']
    rw [hW q (by rw [h]; exact List.mem_cons_self _ _)]

lemma check_xy_ok (m : Matrix) (x y W : Nat)
    (hx : x < m.elements.length) (hw : m.width = some W) (hy : y < W) :
    m.check_xy x y = .ok () := by
  unfold Matrix.check_xy
  simp only [Matrix.height, hw]
  rw [if_neg (Nat.not_le.mpr hx), if_neg (Nat.not_le.mpr hy)]

lemma get_ok (m : Matrix) (x y : Nat) (v : Frac) (W : Nat) (rowx : List Frac)
    (hx : m.elements.get? x = some rowx) (hw : m.width = some W) (hy : y < W)
    (hv : rowx.get? y = some v) :
    m.get x y = .ok v m := by
  have hx' : x < m.elements.length := by
    obtain ⟨h, -⟩ := List.get?_eq_some.mp hx
    exact h
  have hcell : getCell m.elements x y = some v := by
    rw [getCell, hx]
    simpa using hv
  unfold Matrix.get
  simp only [check_xy_ok m x y W hx' hw hy, hcell]

lemma set_ok (m : Matrix) (x y : Nat) (v old : Frac) (W : Nat) (rowx : List Frac)
    (hx : m.elements.get? x = some rowx) (hw : m.width = some W) (hy : y < W)
    (hold : rowx.get? y = some old) :
    m.set x y v = .ok () (Matrix.mk (m.elements.set x (rowx.set y v))
      (m.checksum + (calc_checksum x y old - calc_checksum x y v))) := by
  have hx' : x < m.elements.length := by
    obtain ⟨h, -⟩ := List.get?_eq_some.mp hx
    exact h
  have hcell : getCell m.elements x y = some old := by
    rw [getCell, hx]
    simpa using hold
  unfold Matrix.set
  simp only [check_xy_ok m x y W hx' hw hy, hcell]
  unfold setCell
  rw [hx]

lemma repLoop_spec (r : Nat) (srow : List Frac) (is : List Nat) :
    ∀ (m : Matrix) (cur : List Frac) (W : Nat),
      m.elements.get? r = some cur →
      (∀ q ∈ m.elements, q.length = W) →
      (∀ i ∈ is, i < W) →
      (∀ i ∈ is, i < srow.length) →
      is.Nodup →
      ∃ m' : Matrix,
        repLoop r srow m is = .ok () m' ∧
        m'.elements.length = m.elements.length ∧
        (∀ j, j ≠ r → m'.elements.get? j = m.elements.get? j) ∧
        ∃ fin : List Frac, m'.elements.get? r = some fin ∧
          ∀ i, fin.get? i = (cur.get? i).map
            (fun v => if i ∈ is then v + srow.getD i 0 else v) := by
  induction is with
  | nil =>
    intro m cur W hr hW his hsr hnd
    exact ⟨m, rfl, rfl, fun j _ => rfl, cur, hr, fun i => by simp⟩
  | cons i rest ih =>
    intro m cur W hr hW his hsr hnd
    obtain ⟨hrlt, -⟩ := List.get?_eq_some.mp hr
    have hiW : i < W := his i (List.mem_cons_self _ _)
    have hcurl : cur.length = W := hW cur (List.get?_mem hr)
    have hicur : i < cur.length := by omega
    obtain ⟨v, hv⟩ : ∃ v, cur.get? i = some v := ⟨_, List.get?_eq_get hicur⟩
    obtain ⟨s, hs⟩ : ∃ s, srow.get? i = some s :=
      ⟨_, List.get?_eq_get (hsr i (List.mem_cons_self _ _))⟩
    have hne : m.elements ≠ [] := by
      intro h
      rw [h] at hr
      exact Option.noConfusion hr
    have hw : m.width = some W := width_eq m W hne hW
    have hget := get_ok m r i v W cur hr hw hiW hv
    have hset := set_ok m r i (v + s) v W cur hr hw hiW hv
    have hr1 : (m.elements.set r (cur.set i (v + s))).get? r
        = some (cur.set i (v + s)) := get?_set_self' _ _ _ hrlt
    have hW1 : ∀ q ∈ m.elements.set r (cur.set i (v + s)), q.length = W := by
      intro q hq
      rcases List.mem_or_eq_of_mem_set hq with h1 | rfl
      · exact hW q h1
      · rw [List.length_set]
        exact hcurl
    obtain ⟨m', hrun, hlen', hother', fin, hgr', hchar'⟩ :=
      ih (Matrix.mk (m.elements.set r (cur.set i (v + s)))
          (m.checksum + (calc_checksum r i v - calc_checksum r i (v + s))))
        (cur.set i (v + s)) W hr1 hW1
        (fun j hj => his j (List.mem_cons_of_mem _ hj))
        (fun j hj => hsr j (List.mem_cons_of_mem _ hj))
        (List.nodup_cons.mp hnd).2
    refine ⟨m', ?_, ?_, ?_, fin, hgr', ?_⟩
    · rw [repLoop]
      simp only [hget, hs, hset]
      exact hrun
    · rw [hlen']
      simp only [List.length_set]
    · intro j hj
      rw [hother' j hj]
      exact List.get?_set_ne _ _ (fun h => hj h.symm)
    · intro n
      rw [hchar' n]
      by_cases hni : n = i
      · subst hni
        have hnrest : n ∉ rest := (List.nodup_cons.mp hnd).1
        rw [get?_set_self' cur n (v + s) hicur, hv]
        simp only [Option.map_some']
        rw [if_neg hnrest, if_pos (List.mem_cons_self _ _)]
        rw [List.getD_eq_get?, hs]
        rfl
      · rw [List.get?_set_ne _ _ (fun h => hni h.symm)]
        cases hcn : cur.get? n with
        | none => rfl
        | some v' =>
          simp only [Option.map_some']
          by_cases hnr : n ∈ rest
          · rw [if_pos hnr, if_pos (List.mem_cons_of_mem _ hnr)]
          · rw [if_neg hnr, if_neg (by
              intro hmem
              rcases List.mem_cons.mp hmem with h | h
              · exact hni h
              · exact hnr h)]

/-- Claim C6: for any rectangular matrix and valid row index `r`,
`ReplaceWithMultiple{scaler:k, scaler_row:r, target_row:r}` succeeds and
sets every cell of row `r` to `(1+k)` times its pre-call value (the
source row is snapshotted before any mutation, so there is no cascading
accumulation); all other rows are untouched. -/
theorem c6_replace_self (m : Matrix) (k : Frac) (r : Nat)
    (hr : r < m.height) (hrect : Rectangular m) :
    ∃ m' : Matrix, m.operate (.ReplaceWithMultiple k r r) = .ok () m' ∧
      m'.elements.get? r
        = (m.elements.get? r).map (List.map (fun v => (1 + k) * v)) ∧
      (∀ j, j ≠ r → m'.elements.get? j = m.elements.get? j) := by
  obtain ⟨cur, hcur⟩ : ∃ c, m.elements.get? r = some c := ⟨_, List.get?_eq_get hr⟩
  have hW : ∀ q ∈ m.elements, q.length = (m.elements.headD []).length := hrect
  have hcurl : cur.length = (m.elements.headD []).length := hW cur (List.get?_mem hcur)
  have hop : m.operate (.ReplaceWithMultiple k r r)
      = repLoop r (cur.map (fun n => n * k)) m (List.range cur.length) := by
    simp only [Matrix.operate, hcur]
  obtain ⟨m', hrun, hlen', hother', fin, hgr', hchar'⟩ :=
    repLoop_spec r (cur.map (fun n => n * k)) (List.range cur.length) m cur
      ((m.elements.headD []).length) hcur hW
      (fun i hi => by rw [List.mem_range] at hi; omega)
      (fun i hi => by rw [List.mem_range] at hi; rw [List.length_map]; exact hi)
      (List.nodup_range _)
  refine ⟨m', by rw [hop]; exact hrun, ?_, hother'⟩
  rw [hgr', hcur]
  simp only [Option.map_some']
  congr 1
  apply List.ext_get?
  intro n
  rw [hchar' n, List.get?_map]
  by_cases hn : n < cur.length
  · obtain ⟨v, hv⟩ : ∃ v, cur.get? n = some v := ⟨_, List.get?_eq_get hn⟩
    rw [hv]
    simp only [Option.map_some']
    rw [if_pos (List.mem_range.mpr hn)]
    rw [List.getD_eq_get?, List.get?_map, hv]
    simp only [Option.map_some', Option.getD_some]
    congr 1
    ring
  · have hnone : cur.get? n = none := List.get?_eq_none.mpr (by omega)
    rw [hnone]
    rfl

/-- Witness for C6 at the concrete matrix `[[1,2],[3,4]]` with checksum
13, scaler 3 and row 0. -/
theorem c6_replace_self_witness :
    ∃ m' : Matrix,
      (Matrix.mk [[1, 2], [3, 4]] 13).operate (.ReplaceWithMultiple 3 0 0)
        = .ok () m' ∧
      m'.elements.get? 0
        = ((Matrix.mk [[1, 2], [3, 4]] 13).elements.get? 0).map
            (List.map (fun v => (1 + 3) * v)) ∧
      (∀ j, j ≠ 0 → m'.elements.get? j
        = (Matrix.mk [[1, 2], [3, 4]] 13).elements.get? j) :=
  c6_replace_self (Matrix.mk [[1, 2], [3, 4]] 13) 3 0 (by decide) (by decide)

end MatrixCalc
